import Mathlib

/-!
Shallow embedding of the food_inventory service (FastAPI + SQLAlchemy/SQLite).

The store is a single table of inventory items with an autoincrement integer
primary key `id` and a unique, non-null `name` column (`src/models.py`).  We
model the database as a list of rows in insertion order together with the next
id to be assigned.  The crud layer (`src/crud.py`) and the request handlers
(`src/main.py`) are translated function by function; SQLAlchemy's
`IntegrityError` on commit is modelled by an explicit constraint check (the
unique index on `name` and the NOT NULL constraints), with rollback modelled by
returning the unchanged database.  Pydantic validation (`src/schemas.py`) is
modelled by explicit validators over raw payloads, where an optional field of a
payload is `Option` (absent vs present) and an update payload distinguishes
"field unset" from "field explicitly null" via `Option (Option _)`, matching
Pydantic v2 `model_dump(exclude_unset := True)`.
-/

namespace FoodInventory

/-- A persisted row of the `inventory_items` table (`src/models.py`):
`id` integer primary key, `name` non-null unique string, `description`
nullable text, `status` non-null boolean. -/
structure Item where
  id : Nat
  name : String
  description : Option String
  status : Bool
deriving Repr, DecidableEq

/-- The database: rows in insertion order plus the next autoincrement id. -/
structure DB where
  items : List Item
  nextId : Nat
deriving Repr, DecidableEq

/-- An HTTP error as raised by `HTTPException(status_code, detail)`. -/
structure HError where
  code : Nat
  detail : String
deriving Repr, DecidableEq

/-- `schemas.InventoryItemCreate` after validation: `name` required,
`description` optional (absent ⇒ null), `status` defaulted to `true`. -/
structure InventoryItemCreate where
  name : String
  description : Option String
  status : Bool
deriving Repr, DecidableEq

/-- `schemas.InventoryItemUpdate` after validation.  Each field is
`Option (Option _)`: the outer layer is "was the field present in the request
payload" (Pydantic's `exclude_unset`), the inner layer is the value, which may
itself be JSON null. -/
structure InventoryItemUpdate where
  name : Option (Option String)
  description : Option (Option String)
  status : Option (Option Bool)
deriving Repr, DecidableEq

/-- The value the handler sees when it reads `item.name` on an update payload:
Pydantic yields `None` both when the field was unset and when it was explicitly
null, so both collapse to `none`. -/
def InventoryItemUpdate.nameVal (u : InventoryItemUpdate) : Option String :=
  u.name.join

/-! ### crud layer (`src/crud.py`) -/

/-- `crud.get_item`: first row whose `id` matches, or absent. -/
def get_item (db : DB) (item_id : Nat) : Option Item :=
  db.items.find? (fun j => j.id == item_id)

/-- `crud.get_item_by_name`: first row whose `name` matches, or absent. -/
def get_item_by_name (db : DB) (name : String) : Option Item :=
  db.items.find? (fun j => j.name == name)

/-- `crud.get_items`: `offset(skip).limit(limit)` over the table.  SQLite
treats a negative OFFSET as zero (`Int.toNat` of a negative is `0`) and a
negative LIMIT as "no upper bound". -/
def get_items (db : DB) (skip limit : Int) : List Item :=
  let page := db.items.drop skip.toNat
  if limit < 0 then page else page.take limit.toNat

/-- `crud.create_item`: insert a new row; on commit the unique index on `name`
raises `IntegrityError`, which is caught, rolled back, and reported as `none`. -/
def create_item (db : DB) (item : InventoryItemCreate) : Option Item × DB :=
  if db.items.any (fun j => j.name == item.name) then
    (none, db)
  else
    let dbItem : Item := ⟨db.nextId, item.name, item.description, item.status⟩
    (some dbItem, ⟨db.items ++ [dbItem], db.nextId + 1⟩)

/-- The in-memory ORM row after `setattr` per provided field, before commit:
`name` and `status` may transiently be null even though their columns are
NOT NULL. -/
structure PendingRow where
  id : Nat
  name : Option String
  description : Option String
  status : Option Bool
deriving Repr, DecidableEq

/-- The `for key, value in update_data.items(): setattr(db_item, key, value)`
loop of `crud.update_item`, over `model_dump(exclude_unset := True)`: only
fields present in the request are assigned; a field explicitly null is
assigned null. -/
def applyUpdate (it : Item) (u : InventoryItemUpdate) : PendingRow :=
  { id := it.id
    name := match u.name with
      | none => some it.name
      | some v => v
    description := match u.description with
      | none => it.description
      | some v => v
    status := match u.status with
      | none => some it.status
      | some v => v }

/-- `crud.update_item`: look the row up by id, assign the provided fields, and
commit.  Commit raises `IntegrityError` (caught, rolled back, `none`) when a
NOT NULL column (`name`, `status`) was assigned null or when another row
already holds the new `name` (unique index); otherwise the row is updated in
place. -/
def update_item (db : DB) (item_id : Nat) (item : InventoryItemUpdate) :
    Option Item × DB :=
  match get_item db item_id with
  | none => (none, db)
  | some dbItem =>
    let p := applyUpdate dbItem item
    match p.name, p.status with
    | some nm, some st =>
      if db.items.any (fun j => !(j.id == item_id) && j.name == nm) then
        (none, db)
      else
        let newItem : Item := ⟨p.id, nm, p.description, st⟩
        (some newItem,
         ⟨db.items.map (fun j => if j.id == item_id then newItem else j),
          db.nextId⟩)
    | _, _ => (none, db)

/-- `crud.delete_item`: look the row up by id, remove it, and return it. -/
def delete_item (db : DB) (item_id : Nat) : Option Item × DB :=
  match get_item db item_id with
  | none => (none, db)
  | some dbItem =>
    (some dbItem, ⟨db.items.eraseP (fun j => j.id == item_id), db.nextId⟩)

/-! ### request handlers (`src/main.py`) -/

/-- `detail` of the 404 raised by the read, update and delete handlers. -/
def itemNotFound : HError := ⟨404, "Item not found"⟩

/-- `detail` of the 409 raised by the create handler's name pre-check. -/
def createConflict : HError := ⟨409, "Item with this name already exists"⟩

/-- `detail` of the 409 raised by the update handler's name pre-check. -/
def updateConflict : HError := ⟨409, "Another item with this name already exists"⟩

/-- The 500 raised by the create handler when `crud.create_item` returns a
falsy result. -/
def createInternal : HError :=
  ⟨500, "Could not create item due to an unexpected error."⟩

/-- The 500 raised by the update handler when `crud.update_item` returns a
falsy result. -/
def updateInternal : HError :=
  ⟨500, "Could not update item due to an unexpected error."⟩

/-- The tail of `create_inventory_item` (`src/main.py` lines 55–61): how the
handler maps the outcome of `crud.create_item` to a response once the name
pre-check has passed.  `crud.create_item` reports a uniqueness conflict
(`IntegrityError`) as `none`, and the handler turns any `none` into a 500. -/
def createRespond (created : Option Item) : Except HError Item :=
  match created with
  | some it => .ok it
  | none => .error createInternal

/-- `main.create_inventory_item`: pre-check the name for a duplicate (409),
then invoke the store create and map its outcome. -/
def create_inventory_item (db : DB) (item : InventoryItemCreate) :
    Except HError Item × DB :=
  match get_item_by_name db item.name with
  | some _ => (.error createConflict, db)
  | none =>
    let r := create_item db item
    (createRespond r.1, r.2)

/-- `main.read_inventory_item`: 404 on a missing id, otherwise the row. -/
def read_inventory_item (db : DB) (item_id : Nat) : Except HError Item :=
  match get_item db item_id with
  | none => .error itemNotFound
  | some it => .ok it

/-- Default of the `skip` query parameter of `main.read_inventory_items`. -/
def skipDefault : Int := 0

/-- Default of the `limit` query parameter of `main.read_inventory_items`. -/
def limitDefault : Int := 100

/-- `main.read_inventory_items`: returns the store's page directly; the
handler performs no validation of `skip` or `limit` and has no error path. -/
def read_inventory_items (db : DB) (skip limit : Int) : List Item :=
  get_items db skip limit

/-- The update handler's `nameConflict` test (`src/main.py` lines 106–110):
fires only when the payload's `name` attribute is non-null, differs from the
current name, and some other row already holds it.  Pydantic collapses "name
unset" and "name explicitly null" to the same `None` attribute value, so both
skip this check. -/
def nameConflictCheck (db : DB) (item_id : Nat) (dbItem : Item)
    (item : InventoryItemUpdate) : Bool :=
  match item.nameVal with
  | some nm =>
    if nm != dbItem.name then
      match get_item_by_name db nm with
      | some existing => existing.id != item_id
      | none => false
    else false
  | none => false

/-- `main.update_inventory_item`: 404 on a missing id; 409 when the payload
carries a non-null `name` that differs from the current one and some other row
already holds it; otherwise invoke the store update, turning a falsy result
into a 500. -/
def update_inventory_item (db : DB) (item_id : Nat)
    (item : InventoryItemUpdate) : Except HError Item × DB :=
  match get_item db item_id with
  | none => (.error itemNotFound, db)
  | some dbItem =>
    if nameConflictCheck db item_id dbItem item then (.error updateConflict, db)
    else
      match update_item db item_id item with
      | (some it, db') => (.ok it, db')
      | (none, db') => (.error updateInternal, db')

/-- `main.delete_inventory_item`: 404 on a missing id, otherwise 204 with no
body. -/
def delete_inventory_item (db : DB) (item_id : Nat) : Except HError Unit × DB :=
  match delete_item db item_id with
  | (none, db') => (.error itemNotFound, db')
  | (some _, db') => (.ok (), db')

/-! ### validation layer (`src/schemas.py`) -/

/-- A raw create payload before validation: `description` and `status` may be
absent. -/
structure RawCreate where
  name : String
  description : Option String
  status : Option Bool
deriving Repr, DecidableEq

/-- A raw update payload before validation: each field may be absent, or
present with a value that may itself be JSON null. -/
structure RawUpdate where
  name : Option (Option String)
  description : Option (Option String)
  status : Option (Option Bool)
deriving Repr, DecidableEq

/-- The `Field(min_length := 1, max_length := 100)` constraint on `name`:
Pydantic checks the raw string length, with no whitespace stripping. -/
def nameLenOk (s : String) : Bool :=
  decide (1 ≤ s.length) && decide (s.length ≤ 100)

/-- The `Field(max_length := 500)` constraint on `description`. -/
def descLenOk (s : String) : Bool :=
  decide (s.length ≤ 500)

/-- Validation of `InventoryItemCreate`: `name` required with length bounds,
`description` optional with a length bound, `status` defaulted to `true` when
absent. -/
def validateCreate (r : RawCreate) : Except HError InventoryItemCreate :=
  if !nameLenOk r.name then
    .error ⟨422, "name"⟩
  else
    match r.description with
    | some d =>
      if !descLenOk d then .error ⟨422, "description"⟩
      else .ok ⟨r.name, r.description, r.status.getD true⟩
    | none => .ok ⟨r.name, r.description, r.status.getD true⟩

/-- The `name` field of `InventoryItemUpdate` is `Optional[str]` with length
bounds: an explicit null passes, a string must satisfy the bounds. -/
def checkUpdateName : Option (Option String) → Except HError Unit
  | some (some s) => if nameLenOk s then .ok () else .error ⟨422, "name"⟩
  | _ => .ok ()

/-- The `description` field of `InventoryItemUpdate` is `Optional[str]` with a
length bound: an explicit null passes, a string must satisfy the bound. -/
def checkUpdateDesc : Option (Option String) → Except HError Unit
  | some (some s) => if descLenOk s then .ok () else .error ⟨422, "description"⟩
  | _ => .ok ()

/-- Validation of `InventoryItemUpdate`: all three fields optional, length
bounds enforced only on present string values, explicit nulls accepted. -/
def validateUpdate (r : RawUpdate) : Except HError InventoryItemUpdate :=
  match checkUpdateName r.name with
  | .error e => .error e
  | .ok _ =>
    match checkUpdateDesc r.description with
    | .error e => .error e
    | .ok _ => .ok ⟨r.name, r.description, r.status⟩

/-! ### store invariants -/

/-- At most one row per `name`: the unique index on `inventory_items.name`. -/
def NamesUnique (items : List Item) : Prop :=
  (items.map Item.name).Nodup

/-- At most one row per `id`: the primary key. -/
def IdsUnique (items : List Item) : Prop :=
  (items.map Item.id).Nodup

/-- Every live id is below the next autoincrement value. -/
def IdsBounded (db : DB) : Prop :=
  ∀ it ∈ db.items, it.id < db.nextId

/-- Well-formedness of the store: the two uniqueness constraints plus the
autoincrement bound. -/
def WF (db : DB) : Prop :=
  NamesUnique db.items ∧ IdsUnique db.items ∧ IdsBounded db

instance (items : List Item) : Decidable (NamesUnique items) :=
  inferInstanceAs (Decidable (List.Nodup _))

instance (items : List Item) : Decidable (IdsUnique items) :=
  inferInstanceAs (Decidable (List.Nodup _))

instance (db : DB) : Decidable (IdsBounded db) :=
  inferInstanceAs (Decidable (∀ it ∈ db.items, it.id < db.nextId))

instance (db : DB) : Decidable (WF db) :=
  inferInstanceAs (Decidable (_ ∧ _ ∧ _))

/-- The spec phrases the `name` constraint as a bound on the *trimmed* length
(leading and trailing whitespace removed, as Python's `str.strip` would).
Pydantic's `min_length`/`max_length` check the raw length instead; this
definition exists solely to compare the two. -/
def specTrimmedLength (s : String) : Nat :=
  ((s.data.dropWhile Char.isWhitespace).reverse.dropWhile Char.isWhitespace).length

/-- Whether a handler outcome is a success. -/
def isOk {α : Type} (e : Except HError α) : Bool :=
  match e with
  | .ok _ => true
  | .error _ => false

/-! ### helper lemmas -/

/-- `find?` with an equality test recovers any member of a list whose image
under `f` is duplicate-free. -/
theorem find?_beq_of_nodup_map {α β : Type} [BEq β] [LawfulBEq β] (f : α → β)
    (b : β) :
    ∀ (l : List α), (l.map f).Nodup → ∀ (x : α), x ∈ l → f x = b →
      l.find? (fun j => f j == b) = some x := by
  intro l
  induction l with
  | nil => intro _ x hx; cases hx
  | cons a t ih =>
    intro hnd x hx hfx
    rw [List.map_cons, List.nodup_cons] at hnd
    rcases List.mem_cons.mp hx with rfl | hxt
    · exact List.find?_cons_of_pos t (by simp [hfx])
    · have hne : f a ≠ b := by
        intro hab
        exact hnd.1 (hab ▸ hfx ▸ List.mem_map_of_mem f hxt)
      rw [List.find?_cons_of_neg t (by simp [hne])]
      exact ih hnd.2 x hxt hfx

/-- Distinct members of a list with duplicate-free `f`-image have distinct
`f`-values. -/
theorem eq_of_mem_of_nodup_map {α β : Type} {f : α → β} {l : List α}
    (hnd : (l.map f).Nodup) {x y : α} (hx : x ∈ l) (hy : y ∈ l)
    (hf : f x = f y) : x = y :=
  List.inj_on_of_nodup_map hnd hx hy hf

/-- A map that fixes every member of a list is the identity on it. -/
theorem map_eq_self_of_fix {α : Type} (f : α → α) :
    ∀ (l : List α), (∀ a ∈ l, f a = a) → l.map f = l := by
  intro l h
  calc l.map f = l.map id := List.map_congr_left h
  _ = l := List.map_id l

/-- Replacing the row with a given id by a row carrying the same id leaves the
id column of the table unchanged. -/
theorem map_replace_ids (item_id : Nat) (newItem : Item)
    (hid : newItem.id = item_id) (l : List Item) :
    ((l.map (fun j => if j.id == item_id then newItem else j)).map Item.id) =
      l.map Item.id := by
  rw [List.map_map]
  apply List.map_congr_left
  intro j _
  by_cases h : j.id = item_id
  · simp [Function.comp, h, hid]
  · simp [Function.comp, h]

/-- Replacing the row with a given id by a row whose name no other row holds
keeps the name column duplicate-free. -/
theorem nodup_names_map_replace (item_id : Nat) (newItem : Item)
    (hid : newItem.id = item_id) :
    ∀ (l : List Item), (l.map Item.id).Nodup → (l.map Item.name).Nodup →
      (∀ j ∈ l, j.id ≠ item_id → j.name ≠ newItem.name) →
      ((l.map (fun j => if j.id == item_id then newItem else j)).map
        Item.name).Nodup := by
  intro l
  induction l with
  | nil => intro _ _ _; simp
  | cons a t ih =>
    intro hids hnames hfresh
    rw [List.map_cons, List.nodup_cons] at hids hnames
    simp only [List.map_cons, List.nodup_cons]
    by_cases h : a.id = item_id
    · have hident : ∀ j ∈ t,
          (fun j => if j.id == item_id then newItem else j) j = j := by
        intro j hj
        have hne : ¬((j.id == item_id) = true) := by
          simp only [beq_iff_eq]
          intro hj'
          exact hids.1 (by rw [h, ← hj']; exact List.mem_map_of_mem Item.id hj)
        exact if_neg hne
      rw [map_eq_self_of_fix _ t hident,
        if_pos (show (a.id == item_id) = true by simp [h])]
      refine ⟨?_, hnames.2⟩
      intro hmem
      obtain ⟨j, hjmem, hjeq⟩ := List.mem_map.mp hmem
      have hjne : j.id ≠ item_id := by
        intro hj'
        exact hids.1 (by rw [h, ← hj']; exact List.mem_map_of_mem Item.id hjmem)
      exact hfresh j (List.mem_cons_of_mem a hjmem) hjne hjeq
    · rw [if_neg (show ¬((a.id == item_id) = true) by simp [h])]
      refine ⟨?_, ih hids.2 hnames.2
        (fun j hj hj' => hfresh j (List.mem_cons_of_mem a hj) hj')⟩
      intro hmem
      rw [List.map_map] at hmem
      obtain ⟨j, hjmem, hjeq⟩ := List.mem_map.mp hmem
      by_cases hj : j.id = item_id
      · have hna : newItem.name = a.name := by
          simpa [Function.comp, hj] using hjeq
        exact hfresh a (List.mem_cons_self a t) h hna.symm
      · have hna : j.name = a.name := by
          simpa [Function.comp, hj] using hjeq
        exact hnames.1 (hna ▸ List.mem_map_of_mem Item.name hjmem)

/-- Whatever `get_item` returns carries the looked-up id. -/
theorem get_item_id {db : DB} {iid : Nat} {X : Item}
    (h : get_item db iid = some X) : X.id = iid := by
  simpa using List.find?_some h

/-- Whatever `get_item` returns is a row of the table. -/
theorem get_item_mem {db : DB} {iid : Nat} {X : Item}
    (h : get_item db iid = some X) : X ∈ db.items :=
  List.mem_of_find?_eq_some h

/-- With a duplicate-free id column, `get_item` recovers any row by its id. -/
theorem get_item_of_mem {db : DB} (h : IdsUnique db.items) {X : Item}
    (hX : X ∈ db.items) : get_item db X.id = some X :=
  find?_beq_of_nodup_map Item.id X.id db.items h X hX rfl

/-- With a duplicate-free name column, `get_item_by_name` recovers any row by
its name. -/
theorem get_item_by_name_of_mem {db : DB} (h : NamesUnique db.items) {X : Item}
    (hX : X ∈ db.items) : get_item_by_name db X.name = some X :=
  find?_beq_of_nodup_map Item.name X.name db.items h X hX rfl

/-- `get_item` misses exactly when no row has the id. -/
theorem get_item_eq_none {db : DB} {iid : Nat}
    (h : ∀ it ∈ db.items, it.id ≠ iid) : get_item db iid = none :=
  List.find?_eq_none.mpr (fun x hx => by simp [h x hx])

/-- `get_item_by_name` misses exactly when no row has the name. -/
theorem get_item_by_name_eq_none {db : DB} {nm : String}
    (h : ∀ it ∈ db.items, it.name ≠ nm) : get_item_by_name db nm = none :=
  List.find?_eq_none.mpr (fun x hx => by simp [h x hx])

/-- The store's create preserves well-formedness: a duplicate insert is rolled
back, a fresh insert extends the table with an unused name and a fresh id. -/
theorem WF_create_item (db : DB) (c : InventoryItemCreate) (h : WF db) :
    WF (create_item db c).2 := by
  obtain ⟨hn, hi, hb⟩ := h
  by_cases hany : db.items.any (fun j => j.name == c.name) = true
  · unfold create_item
    rw [if_pos hany]
    exact ⟨hn, hi, hb⟩
  · unfold create_item
    rw [if_neg hany]
    have hfalse : db.items.any (fun j => j.name == c.name) = false := by
      cases hb2 : db.items.any (fun j => j.name == c.name) with
      | false => rfl
      | true => exact absurd hb2 hany
    have hfresh : ∀ j ∈ db.items, j.name ≠ c.name := by
      intro j hj
      have h1 := List.any_eq_false.mp hfalse j hj
      simpa using h1
    refine ⟨?_, ?_, ?_⟩
    · show ((db.items ++
        [(⟨db.nextId, c.name, c.description, c.status⟩ : Item)]).map
          Item.name).Nodup
      rw [List.map_append, List.nodup_append_comm]
      show (c.name :: db.items.map Item.name).Nodup
      rw [List.nodup_cons]
      refine ⟨?_, hn⟩
      intro hmem
      obtain ⟨j, hj, hjeq⟩ := List.mem_map.mp hmem
      exact hfresh j hj hjeq
    · show ((db.items ++
        [(⟨db.nextId, c.name, c.description, c.status⟩ : Item)]).map
          Item.id).Nodup
      rw [List.map_append, List.nodup_append_comm]
      show (db.nextId :: db.items.map Item.id).Nodup
      rw [List.nodup_cons]
      refine ⟨?_, hi⟩
      intro hmem
      obtain ⟨j, hj, hjeq⟩ := List.mem_map.mp hmem
      exact Nat.lt_irrefl db.nextId (hjeq ▸ hb j hj)
    · intro x hx
      rcases List.mem_append.mp hx with hx | hx
      · exact Nat.lt_succ_of_lt (hb x hx)
      · rw [List.mem_singleton.mp hx]
        exact Nat.lt_succ_self db.nextId

/-- `update_item` on a missing id is a rejected no-op. -/
theorem update_item_eq_none_of_none {db : DB} {iid : Nat}
    {u : InventoryItemUpdate} (h : get_item db iid = none) :
    update_item db iid u = (none, db) := by
  unfold update_item
  rw [h]

/-- `update_item` when the pending row's `name` is null: the NOT NULL
constraint fires on commit and the transaction is rolled back. -/
theorem update_item_eq_none_of_null_name {db : DB} {iid : Nat}
    {u : InventoryItemUpdate} {dbItem : Item} (h : get_item db iid = some dbItem)
    (hn : (applyUpdate dbItem u).name = none) :
    update_item db iid u = (none, db) := by
  unfold update_item
  rw [h]
  dsimp only
  rw [hn]

/-- `update_item` when the pending row's `status` is null: the NOT NULL
constraint fires on commit and the transaction is rolled back. -/
theorem update_item_eq_none_of_null_status {db : DB} {iid : Nat}
    {u : InventoryItemUpdate} {dbItem : Item} (h : get_item db iid = some dbItem)
    {nm : String} (hn : (applyUpdate dbItem u).name = some nm)
    (hs : (applyUpdate dbItem u).status = none) :
    update_item db iid u = (none, db) := by
  unfold update_item
  rw [h]
  dsimp only
  rw [hn, hs]

/-- `update_item` when the pending row satisfies both NOT NULL constraints:
commit succeeds unless some other row already holds the new name. -/
theorem update_item_eq_of_some {db : DB} {iid : Nat} {u : InventoryItemUpdate}
    {dbItem : Item} (h : get_item db iid = some dbItem) {nm : String}
    {st : Bool} (hn : (applyUpdate dbItem u).name = some nm)
    (hs : (applyUpdate dbItem u).status = some st) :
    update_item db iid u =
      (if db.items.any (fun j => !(j.id == iid) && j.name == nm) then
        (none, db)
      else
        (some ⟨dbItem.id, nm, (applyUpdate dbItem u).description, st⟩,
         ⟨db.items.map (fun j =>
            if j.id == iid then
              ⟨dbItem.id, nm, (applyUpdate dbItem u).description, st⟩
            else j),
          db.nextId⟩)) := by
  unfold update_item
  rw [h]
  dsimp only
  rw [hn, hs]
  rfl

/-- The store's update preserves well-formedness: a conflicting or null write
is rolled back, a clean write replaces the row in place with an unused name
and the same id. -/
theorem WF_update_item (db : DB) (iid : Nat) (u : InventoryItemUpdate)
    (h : WF db) : WF (update_item db iid u).2 := by
  obtain ⟨hn, hi, hb⟩ := h
  cases hX : get_item db iid with
  | none =>
    rw [update_item_eq_none_of_none hX]
    exact ⟨hn, hi, hb⟩
  | some dbItem =>
    have hXid : dbItem.id = iid := get_item_id hX
    cases hnm : (applyUpdate dbItem u).name with
    | none =>
      rw [update_item_eq_none_of_null_name hX hnm]
      exact ⟨hn, hi, hb⟩
    | some nm =>
      cases hst : (applyUpdate dbItem u).status with
      | none =>
        rw [update_item_eq_none_of_null_status hX hnm hst]
        exact ⟨hn, hi, hb⟩
      | some st =>
        rw [update_item_eq_of_some hX hnm hst]
        by_cases hany :
            db.items.any (fun j => !(j.id == iid) && j.name == nm) = true
        · rw [if_pos hany]
          exact ⟨hn, hi, hb⟩
        · rw [if_neg hany]
          have hfalse :
              db.items.any (fun j => !(j.id == iid) && j.name == nm) = false := by
            cases hb2 : db.items.any (fun j => !(j.id == iid) && j.name == nm) with
            | false => rfl
            | true => exact absurd hb2 hany
          have hfresh : ∀ j ∈ db.items, j.id ≠ iid → j.name ≠ nm := by
            intro j hj hjid hjnm
            have h1 := List.any_eq_false.mp hfalse j hj
            apply h1
            simp [hjid, hjnm]
          refine ⟨?_, ?_, ?_⟩
          · exact nodup_names_map_replace iid
              ⟨dbItem.id, nm, (applyUpdate dbItem u).description, st⟩
              hXid db.items hi hn hfresh
          · show ((db.items.map _).map Item.id).Nodup
            rw [map_replace_ids iid
              ⟨dbItem.id, nm, (applyUpdate dbItem u).description, st⟩ hXid]
            exact hi
          · intro x hx
            obtain ⟨j, hj, hjeq⟩ := List.mem_map.mp hx
            have hxid : x.id = j.id := by
              by_cases hjid : j.id = iid
              · rw [← hjeq]; simp [hjid, hXid]
              · rw [← hjeq]; simp [hjid]
            rw [hxid]
            exact hb j hj

/-- The store's delete preserves well-formedness: erasing a row keeps both
columns duplicate-free and removes no capacity for a fresh id. -/
theorem WF_delete_item (db : DB) (iid : Nat) (h : WF db) :
    WF (delete_item db iid).2 := by
  obtain ⟨hn, hi, hb⟩ := h
  unfold delete_item
  cases hX : get_item db iid with
  | none => exact ⟨hn, hi, hb⟩
  | some dbItem =>
    refine ⟨?_, ?_, ?_⟩
    · exact List.Nodup.sublist
        (List.Sublist.map Item.name (List.eraseP_sublist _)) hn
    · exact List.Nodup.sublist
        (List.Sublist.map Item.id (List.eraseP_sublist _)) hi
    · intro x hx
      exact hb x ((List.eraseP_sublist _).subset hx)

/-- The create handler preserves well-formedness. -/
theorem WF_create_handler (db : DB) (c : InventoryItemCreate) (h : WF db) :
    WF (create_inventory_item db c).2 := by
  unfold create_inventory_item
  cases hX : get_item_by_name db c.name with
  | some _ => exact h
  | none => exact WF_create_item db c h

/-- The update handler preserves well-formedness. -/
theorem WF_update_handler (db : DB) (iid : Nat) (u : InventoryItemUpdate)
    (h : WF db) : WF (update_inventory_item db iid u).2 := by
  unfold update_inventory_item
  cases hX : get_item db iid with
  | none => exact h
  | some dbItem =>
    dsimp only
    split
    · exact h
    · split
      · rename_i it db' heq
        have h2 := WF_update_item db iid u h
        rw [heq] at h2
        exact h2
      · rename_i db' heq
        have h2 := WF_update_item db iid u h
        rw [heq] at h2
        exact h2

/-- The create handler short-circuits with a 409 when the name pre-check
finds an existing row. -/
theorem create_handler_conflict {db : DB} {c : InventoryItemCreate} {X : Item}
    (h : get_item_by_name db c.name = some X) :
    create_inventory_item db c = (.error createConflict, db) := by
  unfold create_inventory_item
  rw [h]

/-- When the name pre-check passes, the create handler returns whatever
`createRespond` makes of the store outcome. -/
theorem create_handler_fresh {db : DB} {c : InventoryItemCreate}
    (h : get_item_by_name db c.name = none) :
    create_inventory_item db c =
      (createRespond (create_item db c).1, (create_item db c).2) := by
  unfold create_inventory_item
  rw [h]

/-- The update handler short-circuits with a 409 when the name-conflict check
fires. -/
theorem update_handler_conflict {db : DB} {iid : Nat} {u : InventoryItemUpdate}
    {dbItem : Item} (h : get_item db iid = some dbItem)
    (hc : nameConflictCheck db iid dbItem u = true) :
    update_inventory_item db iid u = (.error updateConflict, db) := by
  unfold update_inventory_item
  rw [h]
  dsimp only
  rw [hc]
  rfl

/-- When the name-conflict check does not fire, the update handler returns
the store outcome, mapping a falsy result to a 500. -/
theorem update_handler_no_conflict {db : DB} {iid : Nat}
    {u : InventoryItemUpdate} {dbItem : Item} (h : get_item db iid = some dbItem)
    (hc : nameConflictCheck db iid dbItem u = false) :
    update_inventory_item db iid u =
      (match update_item db iid u with
       | (some it, db') => (.ok it, db')
       | (none, db') => (.error updateInternal, db')) := by
  unfold update_inventory_item
  rw [h]
  dsimp only
  rw [hc]
  rfl

/-- The delete handler preserves well-formedness. -/
theorem WF_delete_handler (db : DB) (iid : Nat) (h : WF db) :
    WF (delete_inventory_item db iid).2 := by
  unfold delete_inventory_item
  split
  · rename_i db' heq
    have h2 := WF_delete_item db iid h
    rw [heq] at h2
    exact h2
  · rename_i x db' heq
    have h2 := WF_delete_item db iid h
    rw [heq] at h2
    exact h2

/-! ### example data for witnesses and counterexamples -/

/-- A sample row, as in the repository's own tests. -/
def itemCoffee : Item := ⟨1, "Coffee Beans", some "Arabica dark roast", true⟩

/-- A second sample row with a distinct id and name. -/
def itemTea : Item := ⟨2, "Tea", none, true⟩

/-- A store holding one row. -/
def dbOne : DB := ⟨[itemCoffee], 2⟩

/-- A store holding two rows. -/
def dbPair : DB := ⟨[itemCoffee, itemTea], 3⟩

/-- The empty store. -/
def dbEmpty : DB := ⟨[], 1⟩

/-! ### the claims -/

/-- C6: for every id with no live record, the read-one, update and delete
handlers each fail with 404 and detail "Item not found", and the store is
left unchanged. -/
theorem missing_id_not_found (db : DB) (iid : Nat) (u : InventoryItemUpdate)
    (h : ∀ it ∈ db.items, it.id ≠ iid) :
    read_inventory_item db iid = .error itemNotFound ∧
    update_inventory_item db iid u = (.error itemNotFound, db) ∧
    delete_inventory_item db iid = (.error itemNotFound, db) ∧
    itemNotFound = ⟨404, "Item not found"⟩ := by
  have h0 : get_item db iid = none := get_item_eq_none h
  refine ⟨?_, ?_, ?_, rfl⟩
  · unfold read_inventory_item
    rw [h0]
  · unfold update_inventory_item
    rw [h0]
  · unfold delete_inventory_item delete_item
    rw [h0]

/-- Witness for C6 at a concrete store and a dead id. -/
theorem missing_id_not_found_witness :
    read_inventory_item dbOne 999 = .error itemNotFound ∧
    update_inventory_item dbOne 999 ⟨none, none, none⟩ =
      (.error itemNotFound, dbOne) ∧
    delete_inventory_item dbOne 999 = (.error itemNotFound, dbOne) ∧
    itemNotFound = ⟨404, "Item not found"⟩ :=
  missing_id_not_found dbOne 999 ⟨none, none, none⟩ (by decide)

/-- C9: an update whose payload sets no field at all succeeds on an existing
id and returns the stored row with every field unchanged; the store itself is
untouched. -/
theorem empty_update_is_noop (db : DB) (iid : Nat) (X : Item) (hwf : WF db)
    (hX : get_item db iid = some X) :
    update_inventory_item db iid (InventoryItemUpdate.mk none none none) =
      (.ok X, db) := by
  obtain ⟨hn, hi, hb⟩ := hwf
  rw [@update_handler_no_conflict db iid ⟨none, none, none⟩ X hX rfl,
    @update_item_eq_of_some db iid ⟨none, none, none⟩ X hX X.name X.status rfl rfl]
  have hanyneg :
      ¬(db.items.any (fun j => !(j.id == iid) && j.name == X.name) = true) := by
    intro hany
    obtain ⟨j, hj, hpj⟩ := List.any_eq_true.mp hany
    simp only [Bool.and_eq_true, Bool.not_eq_true', beq_eq_false_iff_ne,
      beq_iff_eq] at hpj
    have hjX : j = X := eq_of_mem_of_nodup_map hn hj (get_item_mem hX) hpj.2
    exact hpj.1 (by rw [hjX]; exact get_item_id hX)
  rw [if_neg hanyneg]
  dsimp only [applyUpdate]
  have hmap : db.items.map (fun j =>
      if j.id == iid then
        (⟨X.id, X.name, X.description, X.status⟩ : Item)
      else j) = db.items := by
    apply map_eq_self_of_fix
    intro j hj
    by_cases hjid : j.id = iid
    · have hjX : j = X := eq_of_mem_of_nodup_map hi hj (get_item_mem hX)
        (by rw [hjid, ← get_item_id hX])
    -- the matching row is the looked-up row itself, so replacing it is a no-op
      rw [if_pos (by simp [hjid]), hjX]
    · rw [if_neg (by simp [hjid])]
  rw [hmap]

/-- Witness for C9 at a concrete store. -/
theorem empty_update_is_noop_witness :
    update_inventory_item dbOne 1 (InventoryItemUpdate.mk none none none) =
      (.ok itemCoffee, dbOne) :=
  empty_update_is_noop dbOne 1 itemCoffee (by decide) rfl

/-- C10: an update that explicitly sets `name` to null passes schema
validation, is invisible to the handler's conflict pre-check (the attribute
value collapses to `None`), reaches the store as an explicit null write, and
dies there on the NOT NULL constraint, surfacing as a 500 — not a 422. -/
theorem explicit_null_name_update_500 (db : DB) (iid : Nat) (X : Item)
    (hX : get_item db iid = some X) :
    validateUpdate ⟨some none, none, none⟩ =
      .ok ⟨some none, none, none⟩ ∧
    (InventoryItemUpdate.mk (some none) none none).nameVal = none ∧
    (applyUpdate X ⟨some none, none, none⟩).name = none ∧
    update_item db iid ⟨some none, none, none⟩ = (none, db) ∧
    update_inventory_item db iid ⟨some none, none, none⟩ =
      (.error updateInternal, db) ∧
    updateInternal.code = 500 := by
  have h4 : update_item db iid ⟨some none, none, none⟩ = (none, db) :=
    update_item_eq_none_of_null_name hX rfl
  refine ⟨rfl, rfl, rfl, h4, ?_, rfl⟩
  rw [@update_handler_no_conflict db iid ⟨some none, none, none⟩ X hX rfl, h4]

/-- Witness for C10 at a concrete store. -/
theorem explicit_null_name_update_500_witness :
    validateUpdate ⟨some none, none, none⟩ =
      .ok ⟨some none, none, none⟩ ∧
    (InventoryItemUpdate.mk (some none) none none).nameVal = none ∧
    (applyUpdate itemCoffee ⟨some none, none, none⟩).name = none ∧
    update_item dbOne 1 ⟨some none, none, none⟩ = (none, dbOne) ∧
    update_inventory_item dbOne 1 ⟨some none, none, none⟩ =
      (.error updateInternal, dbOne) ∧
    updateInternal.code = 500 :=
  explicit_null_name_update_500 dbOne 1 itemCoffee rfl

/-- C3: renaming an existing item X to the current name of a different
existing item Y fails with 409 ("Another item with this name already
exists"), and the store — hence both X's and Y's records — is unchanged. -/
theorem rename_to_existing_name_conflict (db : DB) (X Y : Item)
    (u : InventoryItemUpdate) (hwf : WF db) (hX : X ∈ db.items)
    (hY : Y ∈ db.items) (hne : Y.id ≠ X.id) (hnv : u.nameVal = some Y.name) :
    update_inventory_item db X.id u = (.error updateConflict, db) ∧
    updateConflict.code = 409 := by
  obtain ⟨hn, hi, hb⟩ := hwf
  have hYX : Y.name ≠ X.name := fun hEq =>
    hne (congrArg Item.id (eq_of_mem_of_nodup_map hn hY hX hEq))
  refine ⟨?_, rfl⟩
  apply update_handler_conflict (get_item_of_mem hi hX)
  unfold nameConflictCheck
  rw [hnv]
  dsimp only
  rw [if_pos (show (Y.name != X.name) = true by simp [hYX]),
    get_item_by_name_of_mem hn hY]
  simp [hne]

/-- Witness for C3 at a concrete two-row store. -/
theorem rename_to_existing_name_conflict_witness :
    update_inventory_item dbPair itemCoffee.id
      ⟨some (some "Tea"), none, none⟩ = (.error updateConflict, dbPair) ∧
    updateConflict.code = 409 :=
  rename_to_existing_name_conflict dbPair itemCoffee itemTea
    ⟨some (some "Tea"), none, none⟩ (by decide) (by decide) (by decide)
    (by decide) rfl

/-- C4: each state-changing handler (create, update, delete) preserves the
name-uniqueness invariant of the store — and in fact full well-formedness,
so the invariant holds after any sequence of operations.  The read handlers
take the store by value and return no store, so they cannot change it. -/
theorem crud_ops_preserve_name_uniqueness (db : DB) (c : InventoryItemCreate)
    (iid : Nat) (u : InventoryItemUpdate) (did : Nat) (hwf : WF db) :
    (NamesUnique (create_inventory_item db c).2.items ∧
      WF (create_inventory_item db c).2) ∧
    (NamesUnique (update_inventory_item db iid u).2.items ∧
      WF (update_inventory_item db iid u).2) ∧
    (NamesUnique (delete_inventory_item db did).2.items ∧
      WF (delete_inventory_item db did).2) :=
  ⟨⟨(WF_create_handler db c hwf).1, WF_create_handler db c hwf⟩,
   ⟨(WF_update_handler db iid u hwf).1, WF_update_handler db iid u hwf⟩,
   ⟨(WF_delete_handler db did hwf).1, WF_delete_handler db did hwf⟩⟩

/-- Witness for C4 at a concrete store and concrete operations. -/
theorem crud_ops_preserve_name_uniqueness_witness :
    (NamesUnique (create_inventory_item dbPair ⟨"Milk", none, true⟩).2.items ∧
      WF (create_inventory_item dbPair ⟨"Milk", none, true⟩).2) ∧
    (NamesUnique (update_inventory_item dbPair 1
        ⟨none, none, some (some false)⟩).2.items ∧
      WF (update_inventory_item dbPair 1 ⟨none, none, some (some false)⟩).2) ∧
    (NamesUnique (delete_inventory_item dbPair 2).2.items ∧
      WF (delete_inventory_item dbPair 2).2) :=
  crud_ops_preserve_name_uniqueness dbPair ⟨"Milk", none, true⟩ 1
    ⟨none, none, some (some false)⟩ 2 (by decide)

/-- C2, counterexample: the claim says a store-level uniqueness conflict
surviving the pre-check maps to 409 AlreadyExists.  `crud.create_item`
reports exactly the `IntegrityError` conflict case as a falsy result
(its docstring: "Returns the created item or None if a conflict (e.g.,
duplicate name) occurs"), and the handler's outcome mapping
(`src/main.py` lines 55–61) turns that falsy result into a 500
InternalError, never a 409. -/
theorem create_store_conflict_maps_to_500 :
    createRespond none = .error createInternal ∧
    createInternal.code = 500 ∧
    ¬(∃ d, createRespond none = Except.error ⟨409, d⟩) := by
  refine ⟨rfl, rfl, ?_⟩
  rintro ⟨d, hd⟩
  have hd' : (Except.error createInternal : Except HError Item) =
      .error ⟨409, d⟩ := hd
  injection hd' with h
  simp [createInternal] at h

/-- C2, amended: a pre-check hit fails with 409 AlreadyExists; any falsy
result from the store create — which for this store means precisely a
uniqueness conflict — fails with 500 InternalError. -/
theorem create_conflict_handling_amended (db : DB) (c : InventoryItemCreate)
    (X : Item) (h : get_item_by_name db c.name = some X) :
    create_inventory_item db c = (.error createConflict, db) ∧
    createConflict = ⟨409, "Item with this name already exists"⟩ ∧
    createRespond none = .error createInternal ∧
    createInternal.code = 500 :=
  ⟨create_handler_conflict h, rfl, rfl, rfl⟩

/-- Witness for the amended C2 at a concrete store. -/
theorem create_conflict_handling_amended_witness :
    create_inventory_item dbOne ⟨"Coffee Beans", some "again", true⟩ =
      (.error createConflict, dbOne) ∧
    createConflict = ⟨409, "Item with this name already exists"⟩ ∧
    createRespond none = .error createInternal ∧
    createInternal.code = 500 :=
  create_conflict_handling_amended dbOne ⟨"Coffee Beans", some "again", true⟩
    itemCoffee rfl

/-- C7, counterexample: the claim says negative `skip`/`limit` are rejected
with a 422.  The handler declares plain `int` query parameters with no bounds
and has no error path at all: a request with `skip = limit = -1` succeeds and
returns rows (SQLite treats negative OFFSET as 0 and negative LIMIT as
unbounded). -/
theorem list_negative_params_not_rejected :
    read_inventory_items dbOne (-1) (-1) = [itemCoffee] ∧
    read_inventory_items dbOne (-1) 100 = [itemCoffee] :=
  ⟨rfl, rfl⟩

/-- C7, amended: the list handler validates nothing and cannot fail; for
non-negative `skip`/`limit` it returns at most `limit` records starting after
the first `skip`, the declared defaults are 0 and 100, and an empty result is
an ordinary success. -/
theorem list_pagination_amended (db : DB) (skip limit : Int)
    (hs : 0 ≤ skip) (hl : 0 ≤ limit) :
    read_inventory_items db skip limit =
      (db.items.drop skip.toNat).take limit.toNat ∧
    (read_inventory_items db skip limit).length ≤ limit.toNat ∧
    read_inventory_items db skipDefault limitDefault = db.items.take 100 ∧
    read_inventory_items ⟨[], db.nextId⟩ skip limit = [] := by
  have hnl : ¬(limit < 0) := not_lt.mpr hl
  have h1 : read_inventory_items db skip limit =
      (db.items.drop skip.toNat).take limit.toNat := by
    unfold read_inventory_items get_items
    rw [if_neg hnl]
  refine ⟨h1, ?_, ?_, ?_⟩
  · rw [h1]
    exact List.length_take_le _ _
  · unfold read_inventory_items get_items skipDefault limitDefault
    rw [if_neg (by norm_num)]
    rfl
  · unfold read_inventory_items get_items
    rw [if_neg hnl]
    simp

/-- Witness for the amended C7 at a concrete store and page. -/
theorem list_pagination_amended_witness :
    read_inventory_items dbPair 1 5 =
      (dbPair.items.drop (1 : Int).toNat).take (5 : Int).toNat ∧
    (read_inventory_items dbPair 1 5).length ≤ (5 : Int).toNat ∧
    read_inventory_items dbPair skipDefault limitDefault =
      dbPair.items.take 100 ∧
    read_inventory_items ⟨[], dbPair.nextId⟩ 1 5 = [] :=
  list_pagination_amended dbPair 1 5 (by norm_num) (by norm_num)

/-- C1: a successful update changes only the fields present in the payload:
every omitted field of the stored record keeps its prior value, and the
updated record is what a subsequent lookup of the id returns. -/
theorem update_preserves_omitted_fields (db : DB) (iid : Nat)
    (u : InventoryItemUpdate) (X it' : Item) (db' : DB)
    (hwf : WF db) (hX : get_item db iid = some X)
    (hup : update_inventory_item db iid u = (.ok it', db')) :
    (u.name = none → it'.name = X.name) ∧
    (u.description = none → it'.description = X.description) ∧
    (u.status = none → it'.status = X.status) ∧
    get_item db' iid = some it' := by
  obtain ⟨hn, hi, hb⟩ := hwf
  by_cases hc : nameConflictCheck db iid X u = true
  · rw [update_handler_conflict hX hc] at hup
    exact absurd hup (by simp)
  · have hcf : nameConflictCheck db iid X u = false := by
      cases hb2 : nameConflictCheck db iid X u with
      | false => rfl
      | true => exact absurd hb2 hc
    rw [update_handler_no_conflict hX hcf] at hup
    cases hnm : (applyUpdate X u).name with
    | none =>
      rw [update_item_eq_none_of_null_name hX hnm] at hup
      exact absurd hup (by simp)
    | some nm =>
      cases hst : (applyUpdate X u).status with
      | none =>
        rw [update_item_eq_none_of_null_status hX hnm hst] at hup
        exact absurd hup (by simp)
      | some st =>
        rw [update_item_eq_of_some hX hnm hst] at hup
        by_cases hany :
            db.items.any (fun j => !(j.id == iid) && j.name == nm) = true
        · rw [if_pos hany] at hup
          exact absurd hup (by simp)
        · rw [if_neg hany] at hup
          dsimp only at hup
          injection hup with h1 h2
          injection h1 with h1
          subst h1
          subst h2
          have hXid := get_item_id hX
          refine ⟨?_, ?_, ?_, ?_⟩
          · intro hun
            have hsome : some X.name = some nm := by
              rw [← hnm]
              simp [applyUpdate, hun]
            exact (Option.some.inj hsome).symm
          · intro hud
            show (applyUpdate X u).description = X.description
            simp [applyUpdate, hud]
          · intro hus
            have hsome : some X.status = some st := by
              rw [← hst]
              simp [applyUpdate, hus]
            exact (Option.some.inj hsome).symm
          · have hids2 : IdsUnique (db.items.map (fun j =>
                if j.id == iid then
                  (⟨X.id, nm, (applyUpdate X u).description, st⟩ : Item)
                else j)) := by
              unfold IdsUnique
              rw [map_replace_ids iid
                ⟨X.id, nm, (applyUpdate X u).description, st⟩ hXid]
              exact hi
            have hrepl : (if X.id == iid then
                (⟨X.id, nm, (applyUpdate X u).description, st⟩ : Item)
              else X) = ⟨X.id, nm, (applyUpdate X u).description, st⟩ := by
              rw [if_pos (by simp [hXid])]
            have hmem : (⟨X.id, nm, (applyUpdate X u).description, st⟩ : Item) ∈
                db.items.map (fun j =>
                  if j.id == iid then
                    (⟨X.id, nm, (applyUpdate X u).description, st⟩ : Item)
                  else j) :=
              List.mem_map.mpr ⟨X, get_item_mem hX, hrepl⟩
            exact find?_beq_of_nodup_map Item.id iid _ hids2 _ hmem hXid

/-- Witness for C1: an update touching only `description` leaves `name` and
`status` at their stored values. -/
theorem update_preserves_omitted_fields_witness :
    ((InventoryItemUpdate.mk none (some (some "Fresh")) none).name = none →
      (Item.mk 1 "Coffee Beans" (some "Fresh") true).name = itemCoffee.name) ∧
    ((InventoryItemUpdate.mk none (some (some "Fresh")) none).description =
        none →
      (Item.mk 1 "Coffee Beans" (some "Fresh") true).description =
        itemCoffee.description) ∧
    ((InventoryItemUpdate.mk none (some (some "Fresh")) none).status = none →
      (Item.mk 1 "Coffee Beans" (some "Fresh") true).status =
        itemCoffee.status) ∧
    get_item ⟨[⟨1, "Coffee Beans", some "Fresh", true⟩], 2⟩ 1 =
      some ⟨1, "Coffee Beans", some "Fresh", true⟩ :=
  update_preserves_omitted_fields dbOne 1
    ⟨none, some (some "Fresh"), none⟩ itemCoffee
    ⟨1, "Coffee Beans", some "Fresh", true⟩
    ⟨[⟨1, "Coffee Beans", some "Fresh", true⟩], 2⟩ (by decide) rfl rfl

/-- C5: a valid creation whose name is fresh succeeds, the stored record is
the input with defaults applied (`status` defaults to true, `description`
to null) under a freshly assigned id, and reading that id returns exactly
that record. -/
theorem create_read_roundtrip (db : DB) (r : RawCreate)
    (c : InventoryItemCreate) (hwf : WF db) (hv : validateCreate r = .ok c)
    (hfresh : ∀ it ∈ db.items, it.name ≠ r.name) :
    (create_inventory_item db c).1 =
      .ok ⟨db.nextId, r.name, r.description, r.status.getD true⟩ ∧
    read_inventory_item (create_inventory_item db c).2 db.nextId =
      .ok ⟨db.nextId, r.name, r.description, r.status.getD true⟩ := by
  obtain ⟨hn, hi, hb⟩ := hwf
  have hc : c = ⟨r.name, r.description, r.status.getD true⟩ := by
    unfold validateCreate at hv
    by_cases h1 : nameLenOk r.name
    · rw [if_neg (by simp [h1])] at hv
      cases hd : r.description with
      | none =>
        rw [hd] at hv
        dsimp only at hv
        exact (Except.ok.inj hv).symm
      | some d =>
        rw [hd] at hv
        dsimp only at hv
        by_cases h2 : descLenOk d
        · rw [if_neg (by simp [h2])] at hv
          exact (Except.ok.inj hv).symm
        · rw [if_pos (by simp [h2])] at hv
          exact absurd hv (by simp)
    · rw [if_pos (by simp [h1])] at hv
      exact absurd hv (by simp)
  subst hc
  have h0 : get_item_by_name db
      (InventoryItemCreate.mk r.name r.description (r.status.getD true)).name =
        none :=
    get_item_by_name_eq_none hfresh
  have hanyf : db.items.any (fun j => j.name == r.name) = false :=
    List.any_eq_false.mpr (fun j hj => by simp [hfresh j hj])
  have hci : create_item db ⟨r.name, r.description, r.status.getD true⟩ =
      (some ⟨db.nextId, r.name, r.description, r.status.getD true⟩,
       ⟨db.items ++ [⟨db.nextId, r.name, r.description, r.status.getD true⟩],
        db.nextId + 1⟩) := by
    unfold create_item
    rw [if_neg (by simp [hanyf])]
  have hnone : db.items.find? (fun j => j.id == db.nextId) = none :=
    List.find?_eq_none.mpr (fun x hx => by simp [Nat.ne_of_lt (hb x hx)])
  have hfind : get_item
      ⟨db.items ++ [⟨db.nextId, r.name, r.description, r.status.getD true⟩],
       db.nextId + 1⟩ db.nextId =
        some ⟨db.nextId, r.name, r.description, r.status.getD true⟩ := by
    unfold get_item
    rw [List.find?_append, hnone, List.find?_cons_of_pos _ (by simp)]
    rfl
  rw [create_handler_fresh h0, hci]
  dsimp only
  constructor
  · rfl
  · unfold read_inventory_item
    rw [hfind]

/-- Witness for C5: creating "Coffee Beans" in the empty store and reading
id 1 back. -/
theorem create_read_roundtrip_witness :
    (create_inventory_item dbEmpty
        ⟨"Coffee Beans", some "Arabica dark roast", true⟩).1 =
      .ok ⟨dbEmpty.nextId, "Coffee Beans", some "Arabica dark roast",
        (some true).getD true⟩ ∧
    read_inventory_item (create_inventory_item dbEmpty
        ⟨"Coffee Beans", some "Arabica dark roast", true⟩).2 dbEmpty.nextId =
      .ok ⟨dbEmpty.nextId, "Coffee Beans", some "Arabica dark roast",
        (some true).getD true⟩ :=
  create_read_roundtrip dbEmpty
    ⟨"Coffee Beans", some "Arabica dark roast", some true⟩
    ⟨"Coffee Beans", some "Arabica dark roast", true⟩ (by decide) rfl
    (by decide)

/-- C8, counterexample: the claim says a name is accepted exactly when its
*trimmed* length lies in 1–100.  Pydantic's length bounds do not trim: the
one-character name " " (a single space) is accepted although its trimmed
length is 0. -/
theorem create_validation_not_trimmed :
    isOk (validateCreate ⟨" ", none, none⟩) = true ∧
    ¬(1 ≤ specTrimmedLength " ") := by
  exact ⟨rfl, by decide⟩

/-- C8, amended: creation validation accepts a name exactly when its raw
(untrimmed) length lies in 1–100 and a description exactly when its length
is at most 500; every rejection is a 422, issued by the pure validator
before any store access. -/
theorem create_validation_raw_length (r : RawCreate) :
    (isOk (validateCreate r) = true ↔
      (1 ≤ r.name.length ∧ r.name.length ≤ 100 ∧
        ∀ d ∈ r.description, d.length ≤ 500)) ∧
    ∀ e, validateCreate r = .error e → e.code = 422 := by
  unfold validateCreate
  by_cases h1 : nameLenOk r.name
  · have h1' := h1
    simp only [nameLenOk, Bool.and_eq_true, decide_eq_true_eq] at h1'
    rw [if_neg (by simp [h1])]
    cases hd : r.description with
    | none =>
      dsimp only
      constructor
      · constructor
        · intro _
          exact ⟨h1'.1, h1'.2, fun d hd' => absurd hd' (Option.not_mem_none d)⟩
        · intro _
          rfl
      · intro e he
        exact absurd he (by simp)
    | some d =>
      dsimp only
      by_cases h2 : descLenOk d
      · have h2' := h2
        simp only [descLenOk, decide_eq_true_eq] at h2'
        rw [if_neg (by simp [h2])]
        constructor
        · constructor
          · intro _
            refine ⟨h1'.1, h1'.2, fun d' hd' => ?_⟩
            rw [Option.mem_def, Option.some.injEq] at hd'
            rw [← hd']
            exact h2'
          · intro _
            rfl
        · intro e he
          exact absurd he (by simp)
      · have h2' : ¬(d.length ≤ 500) := by
          simpa [descLenOk] using h2
        rw [if_pos (by simp [h2])]
        constructor
        · constructor
          · intro hok
            exact absurd hok (by simp [isOk])
          · rintro ⟨_, _, hall⟩
            exact absurd (hall d (Option.mem_def.mpr rfl)) h2'
        · intro e he
          have he' : (Except.error (⟨422, "description"⟩ : HError) :
              Except HError InventoryItemCreate) = .error e := he
          injection he' with h
          rw [← h]
  · have h1'' : ¬(1 ≤ r.name.length ∧ r.name.length ≤ 100) := by
      simpa [nameLenOk] using h1
    rw [if_pos (by simp [h1])]
    constructor
    · constructor
      · intro hok
        exact absurd hok (by simp [isOk])
      · rintro ⟨ha, hb', _⟩
        exact absurd ⟨ha, hb'⟩ h1''
    · intro e he
      have he' : (Except.error (⟨422, "name"⟩ : HError) :
          Except HError InventoryItemCreate) = .error e := he
      injection he' with h
      rw [← h]

/-- Witness for the amended C8: a valid name is accepted; an empty name is
rejected with a 422. -/
theorem create_validation_raw_length_witness :
    isOk (validateCreate ⟨"Coffee Beans", none, none⟩) = true ∧
    HError.code ⟨422, "name"⟩ = 422 :=
  ⟨(create_validation_raw_length ⟨"Coffee Beans", none, none⟩).1.mpr
      ⟨by decide, by decide, fun d hd => absurd hd (Option.not_mem_none d)⟩,
   (create_validation_raw_length ⟨"", none, none⟩).2 ⟨422, "name"⟩ rfl⟩

end FoodInventory
